import Mathlib

/-!
Shallow embedding of `src/lib/utils/macro-builder.js` from
babel-plugin-debug-macros: the Babel AST node shapes the builder
constructs, the flag-constant inliner, the three macro expansion
builders (assert / warn / deprecate), the logical-guard compiler and
the guard-binding injector.
-/

/-- Subset of Babel expression nodes produced or inspected by the builder
(`t.identifier`, `t.numericLiteral`, `t.stringLiteral`,
`t.memberExpression`, `t.callExpression`, `t.logicalExpression`,
`t.parenthesizedExpression`). -/
inductive JSExpr where
  | identifier (name : String)
  | numericLiteral (n : Int)
  | stringLiteral (s : String)
  | memberExpression (obj prop : JSExpr)
  | callExpression (callee : JSExpr) (args : List JSExpr)
  | logicalExpression (op : String) (left right : JSExpr)
  | parenthesizedExpression (e : JSExpr)


/-- Babel statement nodes the builder constructs: `t.variableDeclaration`
with a list of `t.variableDeclarator(id, init)` pairs. -/
inductive JSStmt where
  | variableDeclaration (kind : String) (declarations : List (JSExpr × JSExpr))


/-- Babel's `t.isIdentifier` node-shape predicate. -/
def isIdentifier : JSExpr → Bool
  | .identifier _ => true
  | _ => false

/-- Source `_getIdentifiers(args)`: `args.filter((arg) => this.t.isIdentifier(arg))`. -/
def _getIdentifiers (args : List JSExpr) : List JSExpr :=
  args.filter isIdentifier

/-- Source `_createGlobalExternalHelper(type, args, ns)`:
`t.callExpression(t.memberExpression(t.identifier(ns), t.identifier(type)), args)`. -/
def _createGlobalExternalHelper (type_ : String) (args : List JSExpr) (ns : String) : JSExpr :=
  .callExpression (.memberExpression (.identifier ns) (.identifier type_)) args

/-- Source `_createExternalHelper(type, args)`:
`t.callExpression(t.identifier(type), args)`. -/
def _createExternalHelper (type_ : String) (args : List JSExpr) : JSExpr :=
  .callExpression (.identifier type_) args

/-- Source `_createConsoleAPI(type, args)`:
`t.callExpression(t.memberExpression(t.identifier('console'), t.identifier(type)), args)`. -/
def _createConsoleAPI (type_ : String) (args : List JSExpr) : JSExpr :=
  .callExpression (.memberExpression (.identifier "console") (.identifier type_)) args

/-- The loop body of `_buildLogicalExpressions`: starting from the first
element, each later element is folded in as the right operand of a new
`&&` node (`logicalExpressions = t.logicalExpression('&&', logicalExpressions, right)`).
The closure always runs it on a list of length ≥ 2 (guard consed in
front, terminal pushed at the back), so the single-element base case is
never reached from the closure. -/
def chainAnd (first : JSExpr) : List JSExpr → JSExpr
  | [] => first
  | r :: rs => chainAnd (.logicalExpression "&&" first r) rs

/-- One invocation of the closure returned by
`_buildLogicalExpressions(identifiers, callExpression)` applied to
`binding`.  The closure mutates its captured `identifiers` array
(`identifiers.unshift(t.identifier(binding)); identifiers.push(callExpression)`)
before building the chain; we model the mutation by returning the
post-invocation array alongside the built expression, so a second
invocation is a run on the returned array. -/
def _buildLogicalExpressionsRun (identifiers : List JSExpr) (callExpression : JSExpr)
    (binding : String) : JSExpr × List JSExpr :=
  let ids := JSExpr.identifier binding :: (identifiers ++ [callExpression])
  (chainAnd (JSExpr.identifier binding) (identifiers ++ [callExpression]), ids)

/-- A registered pending expansion: the call-site reference is an abstract
tag, the closure's captured state is the leading-condition list and the
terminal call. -/
structure PendingExpansion where
  site : Nat
  conds : List JSExpr
  terminal : JSExpr


/-- Source `_expand(binding)`: for each registered `[exp, logicalExp]` pair, in
order, `exp.replaceWith(this.t.parenthesizedExpression(logicalExp(binding)))`.
The result records, per registered site, the replacement expression. -/
def _expand (expressions : List PendingExpansion) (binding : String) : List (Nat × JSExpr) :=
  expressions.map fun e =>
    (e.site, .parenthesizedExpression (_buildLogicalExpressionsRun e.conds e.terminal binding).1)

/-- Modelled from the spec (section 4.5), for refinement comparison only:
the intended chain `guard && cond_1 && ... && cond_n && terminal`,
left-associated with the guard identifier as leftmost operand, and
`guard && terminal` when the condition sequence is empty. -/
def specGuardChain (guard : String) (conds : List JSExpr) (terminal : JSExpr) : JSExpr :=
  (conds ++ [terminal]).foldl (fun acc c => .logicalExpression "&&" acc c) (.identifier guard)

/-- An import specifier, as the builder reads it: `specifier.imported.name`
and `specifier.local.name`. -/
structure ImportSpecifier where
  imported : String
  localName : String

/-- A FlagTable: `flagTable[name]` is `lookup`, with `undefined` as `none`. -/
abbrev FlagTable := List (String × Int)

/-- Source `generateFlagConstants(specifiers, flagTable, source)`: maps each
specifier to `t.variableDeclaration('const',
[t.variableDeclarator(t.identifier(specifier.imported.name), t.numericLiteral(flag))])`
when `flagTable[specifier.imported.name] !== undefined`, and otherwise
throws ``Error(`Imported ${name} from ${source} which is not a supported flag.`)``.
The throwing `map` evaluates the callback left to right and the first
missing flag aborts the whole call with no output, which is this
`Except`-valued recursion. -/
def generateFlagConstants : List ImportSpecifier → FlagTable → String →
    Except String (List JSStmt)
  | [], _, _ => .ok []
  | specifier :: rest, flagTable, source =>
    match List.lookup specifier.imported flagTable with
    | some flag =>
      match generateFlagConstants rest flagTable source with
      | .ok ds => .ok (JSStmt.variableDeclaration "const"
          [(JSExpr.identifier specifier.imported, JSExpr.numericLiteral flag)] :: ds)
      | .error msg => .error msg
    | none => .error ("Imported " ++ specifier.imported ++ " from " ++ source ++
        " which is not a supported flag.")

/-- Outcome of an inlining pass over one import statement: either the
node was replaced by the generated declarations
(`path.replaceWithMultiple(flagDeclarations)`) or the thrown error
propagated before any replacement, aborting the module transformation. -/
inductive InlineResult where
  | replacedWith (stmts : List JSStmt)
  | aborted (msg : String)

/-- Source `inlineEnvFlags(path)`: generates the flag constants for the import's
specifiers from the environment-flag table and replaces the import with
them; a throw from `generateFlagConstants` escapes before
`replaceWithMultiple` runs. -/
def inlineEnvFlags (specifiers : List ImportSpecifier) (envFlags : FlagTable)
    (source : String) : InlineResult :=
  match generateFlagConstants specifiers envFlags source with
  | .ok flagDeclarations => .replacedWith flagDeclarations
  | .error msg => .aborted msg

/-- One property of the deprecation metadata object literal: the builder
reads `prop.key.name` and `prop.value.value`. -/
structure ObjectProperty where
  key : String
  value : String

/-- The `meta` record `_deprecate` fills in: `{ url: null, id: null, until: null }`,
with `null` as `none`. -/
structure DeprecationMeta where
  url : Option String
  id : Option String
  until_ : Option String

/-- The `metaExpression.properties.forEach` loop: `meta[key.name] = value.value`.
Keys other than `url` / `id` / `until` are written onto the JS object but
never read afterwards, so the record drops them. -/
def readMeta (properties : List ObjectProperty) : DeprecationMeta :=
  properties.foldl (fun meta prop =>
    match prop.key with
    | "url" => { meta with url := some prop.value }
    | "id" => { meta with id := some prop.value }
    | "until" => { meta with until_ := some prop.value }
    | _ => meta)
    { url := none, id := none, until_ := none }

/-- JS truthiness of a field read from the meta record (`!meta.id`,
`meta.url ? _ : _`): `null` and the empty string are falsy. -/
def strTruthy : Option String → Bool
  | none => false
  | some s => s != ""

/-- JS template-string interpolation of a possibly-null field
(`${meta.id}`): `null` prints as "null". -/
def jsStr : Option String → String
  | none => "null"
  | some s => s

/-- Source `_generateDeprecationMessage(message, meta)`: the string literal
``DEPRECATED [${meta.id}]: ${message.value}. Will be removed in ${meta.until_}.``
followed by `` See ${meta.url} for more information.`` when `meta.url`
is truthy. -/
def _generateDeprecationMessage (message : String) (meta : DeprecationMeta) : JSExpr :=
  .stringLiteral ("DEPRECATED [" ++ jsStr meta.id ++ "]: " ++ message ++
    ". Will be removed in " ++ jsStr meta.until_ ++ "." ++
    (if strTruthy meta.url then " See " ++ jsStr meta.url ++ " for more information." else ""))

/-- The `externalizeHelpers` configuration the builder consults:
`this.externalizeHelpers = !!options.externalizeHelpers` and
`this.helpers.global` / `this.helpers.module`. -/
structure HelpersConfig where
  externalizeHelpers : Bool
  globalNS : Option String

/-- The helper-target selection shared by all three builders: global
namespace when externalizing with `helpers.global`, bare external helper
when externalizing without it, `console.<type>` otherwise. -/
def selectHelper (cfg : HelpersConfig) (externalName consoleName : String)
    (args : List JSExpr) : JSExpr :=
  if cfg.externalizeHelpers then
    match cfg.globalNS with
    | some ns => _createGlobalExternalHelper externalName args ns
    | none => _createExternalHelper externalName args
  else _createConsoleAPI consoleName args

/-- What one builder invocation did to its call site. -/
inductive BuildResult where
  | error (msg : String)
  | removed
  | registered (conds : List JSExpr) (terminal : JSExpr)

/-- Source `_deprecate(expression)`: reads `[message, predicate, metaExpression]`
positionally, fills the meta record, raises a `ReferenceError` when `id`
or `until` is missing, removes the call site when
`satisfies(this.packageVersion, meta.until_)` holds, and otherwise
registers the pending expansion `[ [predicate], deprecate-call ]`. The
semver `satisfies` predicate is external; it is passed in as an oracle
already applied to `this.packageVersion`. -/
def _deprecate (cfg : HelpersConfig) (satisfiesUntil : String → Bool)
    (message : String) (predicate : JSExpr)
    (metaProperties : List ObjectProperty) : BuildResult :=
  let meta := readMeta metaProperties
  if !(strTruthy meta.id) then
    .error "deprecate's meta information requires an \"id\" field."
  else if !(strTruthy meta.until_) then
    .error "deprecate's meta information requires an \"until\" field."
  else if satisfiesUntil (jsStr meta.until_) then
    .removed
  else
    let deprecationMessage := _generateDeprecationMessage message meta
    let deprecate := selectHelper cfg "deprecate" "warn" [deprecationMessage]
    .registered [predicate] deprecate

/-- Source `_assert(path)`: builds the terminal assert call from the original
arguments, extracts the identifiers among them, and registers
`[ identifiers, assert-call ]`. -/
def _assert (cfg : HelpersConfig) (args : List JSExpr) : BuildResult :=
  let assert := selectHelper cfg "assert" "assert" args
  .registered (_getIdentifiers args) assert

/-- Source `_warn(expression)`: builds the terminal warn call from the original
arguments and registers `[ [], warn-call ]` (the source computes
`this._getIdentifiers(args)` here too, but discards the result). -/
def _warn (cfg : HelpersConfig) (args : List JSExpr) : BuildResult :=
  let warn := selectHelper cfg "warn" "warn" args
  .registered [] warn

/-- The scope information `_hasDebugModule` reads off a binding:
`debugBinding.kind` and `debugBinding.path.parent.source.value` (the
source of the import declaration that introduced the binding). -/
structure BindingInfo where
  kind : String
  parentSource : String

/-- Source `_hasDebugModule(debugBinding)`: the binding exists, its kind is
`'module'`, and its import declaration's source is `'@ember/env-flags'`. -/
def _hasDebugModule (debugBinding : Option BindingInfo) : Bool :=
  match debugBinding with
  | some b => b.kind == "module" && b.parentSource == "@ember/env-flags"
  | none => false

/-- What `injectFlags` decided and did, before `_cleanImports`. -/
structure InjectResult where
  guardName : String
  injectedDecl : Option JSStmt
  reusePath : Bool
  inlined : Option InlineResult
  replacements : List (Nat × JSExpr)

/-- Source `injectFlags(path)` on the module's entry scope. `debugBinding` is
`path.scope.getBinding('DEBUG')`; `uidName` is the collision-free name
the framework's `generateUidIdentifier('DEBUG')` returns; `debugValue`
is `this.envFlags.DEBUG`; `bindingSpecifiers` is the specifier list of
the import declaration holding the DEBUG binding (used on the reuse
path by `inlineEnvFlags`). -/
def injectFlags (debugBinding : Option BindingInfo) (uidName : String)
    (expressions : List PendingExpansion) (debugValue : Int) (envFlags : FlagTable)
    (bindingSpecifiers : List ImportSpecifier) : InjectResult :=
  if !(_hasDebugModule debugBinding) then
    { guardName := uidName
      injectedDecl :=
        if expressions.length > 0 then
          some (JSStmt.variableDeclaration "const"
            [(JSExpr.identifier uidName, JSExpr.numericLiteral debugValue)])
        else none
      reusePath := false
      inlined := none
      replacements := _expand expressions uidName }
  else
    { guardName := "DEBUG"
      injectedDecl := none
      reusePath := true
      inlined := some (inlineEnvFlags bindingSpecifiers envFlags "@ember/env-flags")
      replacements := _expand expressions "DEBUG" }

/-- Modelled from the spec (section 4.1), for refinement comparison only:
one constant declaration per specifier, each binding the specifier's
LOCAL name to the table's value under the specifier's imported name. -/
def specFlagConstants (specifiers : List ImportSpecifier) (flagTable : FlagTable)
    : List JSStmt :=
  specifiers.map fun specifier =>
    JSStmt.variableDeclaration "const"
      [(JSExpr.identifier specifier.localName,
        JSExpr.numericLiteral ((List.lookup specifier.imported flagTable).getD 0))]

/-- The argument list of a call-expression node (for stating that a
terminal call forwards its arguments unchanged). -/
def callArgs : JSExpr → List JSExpr
  | .callExpression _ args => args
  | _ => []

theorem chainAnd_eq_foldl (l : List JSExpr) (first : JSExpr) :
    chainAnd first l = l.foldl (fun acc c => .logicalExpression "&&" acc c) first := by
  induction l generalizing first with
  | nil => rfl
  | cons r rs ih => simp [chainAnd, List.foldl, ih]

/-- C1: the logical-guard compiler's closure, applied to a guard name `g`,
yields the left-associated chain `g && c_1 && ... && c_n && terminal` with
the guard leftmost; with no leading conditions the result is exactly
`g && terminal`; and finalization replaces every registered call-site
expression by this result wrapped in a parenthesized expression. -/
theorem buildLogicalExpressions_spec :
    ∀ (conds : List JSExpr) (terminal : JSExpr) (g : String),
      (_buildLogicalExpressionsRun conds terminal g).1 = specGuardChain g conds terminal ∧
      (_buildLogicalExpressionsRun [] terminal g).1 =
        JSExpr.logicalExpression "&&" (JSExpr.identifier g) terminal ∧
      ∀ (expressions : List PendingExpansion) (binding : String),
        _expand expressions binding = expressions.map (fun e =>
          (e.site, JSExpr.parenthesizedExpression (specGuardChain binding e.conds e.terminal))) := by
  intro conds terminal g
  refine ⟨?_, rfl, ?_⟩
  · simp [_buildLogicalExpressionsRun, specGuardChain, chainAnd_eq_foldl]
  · intro expressions binding
    simp [_expand, _buildLogicalExpressionsRun, specGuardChain, chainAnd_eq_foldl]

/-- C9 (counterexample): the closure mutates its captured condition array,
so invoking it twice with the same guard name does not return the same
expression: with no leading conditions and terminal `f()`, the first
invocation yields `_DEBUG && f()` but the second, run on the mutated
array, yields `_DEBUG && _DEBUG && f() && f()`. -/
theorem buildLogicalExpressions_closure_mutates :
    (_buildLogicalExpressionsRun
        (_buildLogicalExpressionsRun [] (JSExpr.callExpression (JSExpr.identifier "f") []) "_DEBUG").2
        (JSExpr.callExpression (JSExpr.identifier "f") []) "_DEBUG").1 ≠
      (_buildLogicalExpressionsRun [] (JSExpr.callExpression (JSExpr.identifier "f") []) "_DEBUG").1 := by
  simp [_buildLogicalExpressionsRun, chainAnd]

/-- C9 (amended): the closure has no side effects until invoked, and each
invocation's result is a pure function of the guard name and the captured
condition list and terminal call — but every invocation also appends the
guard and terminal to the captured array, so repeated invocations run on a
grown array rather than reproducing the same expression. -/
theorem buildLogicalExpressions_first_invocation :
    ∀ (conds : List JSExpr) (terminal : JSExpr) (g : String),
      (_buildLogicalExpressionsRun conds terminal g).1 = specGuardChain g conds terminal ∧
      (_buildLogicalExpressionsRun conds terminal g).2 =
        JSExpr.identifier g :: (conds ++ [terminal]) := by
  intro conds terminal g
  exact ⟨by simp [_buildLogicalExpressionsRun, specGuardChain, chainAnd_eq_foldl], rfl⟩

/-- C7: an assert call registers the identifiers among its arguments, in
argument order, as leading conditions, and its terminal call forwards all
original arguments unchanged; `assert(x, "message")` under guard name
`_DEBUG` with the console target expands to
`(_DEBUG && x && console.assert(x, "message"))`. -/
theorem assert_expansion_spec :
    ∀ (cfg : HelpersConfig) (args : List JSExpr),
      _assert cfg args =
        BuildResult.registered (args.filter isIdentifier) (selectHelper cfg "assert" "assert" args) ∧
      callArgs (selectHelper cfg "assert" "assert" args) = args ∧
      _expand [⟨0, _getIdentifiers [JSExpr.identifier "x", JSExpr.stringLiteral "message"],
                selectHelper ⟨false, none⟩ "assert" "assert"
                  [JSExpr.identifier "x", JSExpr.stringLiteral "message"]⟩] "_DEBUG" =
        [(0, JSExpr.parenthesizedExpression
          (JSExpr.logicalExpression "&&"
            (JSExpr.logicalExpression "&&" (JSExpr.identifier "_DEBUG") (JSExpr.identifier "x"))
            (JSExpr.callExpression
              (JSExpr.memberExpression (JSExpr.identifier "console") (JSExpr.identifier "assert"))
              [JSExpr.identifier "x", JSExpr.stringLiteral "message"])))] := by
  intro cfg args
  refine ⟨rfl, ?_, rfl⟩
  unfold selectHelper _createGlobalExternalHelper _createExternalHelper _createConsoleAPI
  cases cfg.externalizeHelpers <;> cases cfg.globalNS <;> simp [callArgs]

/-- C8: a warn call registers no leading conditions — the guard identifier
alone gates emission — and its terminal call forwards all original
arguments unchanged; `warn("message")` with externalization enabled and
`helpers.global = "Ember"` expands under guard `_DEBUG` to
`(_DEBUG && Ember.warn("message"))`. -/
theorem warn_expansion_spec :
    ∀ (cfg : HelpersConfig) (args : List JSExpr),
      _warn cfg args = BuildResult.registered [] (selectHelper cfg "warn" "warn" args) ∧
      callArgs (selectHelper cfg "warn" "warn" args) = args ∧
      _expand [⟨0, [], selectHelper ⟨true, some "Ember"⟩ "warn" "warn"
                [JSExpr.stringLiteral "message"]⟩] "_DEBUG" =
        [(0, JSExpr.parenthesizedExpression
          (JSExpr.logicalExpression "&&" (JSExpr.identifier "_DEBUG")
            (JSExpr.callExpression
              (JSExpr.memberExpression (JSExpr.identifier "Ember") (JSExpr.identifier "warn"))
              [JSExpr.stringLiteral "message"])))] := by
  intro cfg args
  refine ⟨rfl, ?_, rfl⟩
  unfold selectHelper _createGlobalExternalHelper _createExternalHelper _createConsoleAPI
  cases cfg.externalizeHelpers <;> cases cfg.globalNS <;> simp [callArgs]

/-- C2 (counterexample): flag inlining binds each constant to the
specifier's IMPORTED name, not its local name: for the renamed import
specifier `{ imported: "DEBUG", local: "Dbg" }` with table `{DEBUG: 1}`,
the emitted declaration binds `DEBUG`, not the local `Dbg` the claim
requires. -/
theorem generateFlagConstants_localName_counterexample :
    generateFlagConstants [⟨"DEBUG", "Dbg"⟩] [("DEBUG", 1)] "@ember/env-flags" =
      Except.ok [JSStmt.variableDeclaration "const"
        [(JSExpr.identifier "DEBUG", JSExpr.numericLiteral 1)]] ∧
    specFlagConstants [⟨"DEBUG", "Dbg"⟩] [("DEBUG", 1)] =
      [JSStmt.variableDeclaration "const"
        [(JSExpr.identifier "Dbg", JSExpr.numericLiteral 1)]] ∧
    generateFlagConstants [⟨"DEBUG", "Dbg"⟩] [("DEBUG", 1)] "@ember/env-flags" ≠
      Except.ok (specFlagConstants [⟨"DEBUG", "Dbg"⟩] [("DEBUG", 1)]) := by
  refine ⟨rfl, rfl, ?_⟩
  simp [generateFlagConstants, specFlagConstants, List.lookup]

/-- C2 (amended): for every FlagTable and every list of import specifiers
whose imported names all have entries in the table, flag inlining produces
exactly one constant declaration per specifier, in specifier order, each
binding the specifier's IMPORTED name to the literal integer value found
in the table under that imported name. -/
theorem generateFlagConstants_imported_name :
    ∀ (specifiers : List ImportSpecifier) (table : FlagTable) (source : String),
      (∀ s ∈ specifiers, (List.lookup s.imported table).isSome) →
      generateFlagConstants specifiers table source =
        Except.ok (specifiers.map fun s =>
          JSStmt.variableDeclaration "const"
            [(JSExpr.identifier s.imported,
              JSExpr.numericLiteral ((List.lookup s.imported table).getD 0))]) := by
  intro specifiers table source
  induction specifiers with
  | nil => intro h; rfl
  | cons s rest ih =>
    intro h
    obtain ⟨v, hv⟩ := Option.isSome_iff_exists.mp (h s (List.mem_cons_self ..))
    have hrest := ih (fun x hx => h x (List.mem_cons_of_mem _ hx))
    simp [generateFlagConstants, hv, hrest]

/-- C2 (witness). -/
theorem generateFlagConstants_imported_name_witness :
    (∀ s ∈ [(⟨"DEBUG", "DEBUG"⟩ : ImportSpecifier)],
      (List.lookup s.imported ([("DEBUG", 1)] : FlagTable)).isSome) ∧
    generateFlagConstants [⟨"DEBUG", "DEBUG"⟩] [("DEBUG", 1)] "@ember/env-flags" =
      Except.ok ([(⟨"DEBUG", "DEBUG"⟩ : ImportSpecifier)].map fun s =>
        JSStmt.variableDeclaration "const"
          [(JSExpr.identifier s.imported,
            JSExpr.numericLiteral ((List.lookup s.imported ([("DEBUG", 1)] : FlagTable)).getD 0))]) :=
  ⟨by decide,
   generateFlagConstants_imported_name [⟨"DEBUG", "DEBUG"⟩] [("DEBUG", 1)]
     "@ember/env-flags" (by decide)⟩

/-- C3: when some specifier's imported name is absent from the table,
inlining fails with the error naming that specifier and the source
module, and nothing is replaced in the tree — the inlining pass aborts
with zero declarations emitted. -/
theorem generateFlagConstants_unknown_flag_aborts :
    ∀ (specifiers : List ImportSpecifier) (table : FlagTable) (source : String),
      (∃ s ∈ specifiers, List.lookup s.imported table = none) →
      ∃ s ∈ specifiers, List.lookup s.imported table = none ∧
        generateFlagConstants specifiers table source =
          Except.error ("Imported " ++ s.imported ++ " from " ++ source ++
            " which is not a supported flag.") ∧
        inlineEnvFlags specifiers table source =
          InlineResult.aborted ("Imported " ++ s.imported ++ " from " ++ source ++
            " which is not a supported flag.") := by
  intro specifiers table source
  induction specifiers with
  | nil => rintro ⟨s, hs, _⟩; exact absurd hs (List.not_mem_nil s)
  | cons s rest ih =>
    intro hex
    by_cases hhead : List.lookup s.imported table = none
    · refine ⟨s, List.mem_cons_self .., hhead, ?_⟩
      have herr : generateFlagConstants (s :: rest) table source =
          Except.error ("Imported " ++ s.imported ++ " from " ++ source ++
            " which is not a supported flag.") := by
        simp [generateFlagConstants, hhead]
      exact ⟨herr, by simp [inlineEnvFlags, herr]⟩
    · obtain ⟨v, hv⟩ := Option.ne_none_iff_exists'.mp hhead
      have hex' : ∃ x ∈ rest, List.lookup x.imported table = none := by
        obtain ⟨x, hx, hxn⟩ := hex
        rcases List.mem_cons.mp hx with rfl | hx'
        · exact absurd hxn hhead
        · exact ⟨x, hx', hxn⟩
      obtain ⟨x, hx, hxn, hxerr, _⟩ := ih hex'
      refine ⟨x, List.mem_cons_of_mem _ hx, hxn, ?_⟩
      have herr : generateFlagConstants (s :: rest) table source =
          Except.error ("Imported " ++ x.imported ++ " from " ++ source ++
            " which is not a supported flag.") := by
        simp [generateFlagConstants, hv, hxerr]
      exact ⟨herr, by simp [inlineEnvFlags, herr]⟩

/-- C3 (witness). -/
theorem generateFlagConstants_unknown_flag_aborts_witness :
    (∃ s ∈ [(⟨"NOPE", "NOPE"⟩ : ImportSpecifier)],
      List.lookup s.imported ([("DEBUG", 1)] : FlagTable) = none) ∧
    ∃ s ∈ [(⟨"NOPE", "NOPE"⟩ : ImportSpecifier)],
      List.lookup s.imported ([("DEBUG", 1)] : FlagTable) = none ∧
      generateFlagConstants [⟨"NOPE", "NOPE"⟩] [("DEBUG", 1)] "@ember/env-flags" =
        Except.error ("Imported " ++ s.imported ++ " from " ++ "@ember/env-flags" ++
          " which is not a supported flag.") ∧
      inlineEnvFlags [⟨"NOPE", "NOPE"⟩] [("DEBUG", 1)] "@ember/env-flags" =
        InlineResult.aborted ("Imported " ++ s.imported ++ " from " ++ "@ember/env-flags" ++
          " which is not a supported flag.") :=
  ⟨by decide,
   generateFlagConstants_unknown_flag_aborts [⟨"NOPE", "NOPE"⟩] [("DEBUG", 1)]
     "@ember/env-flags" ⟨⟨"NOPE", "NOPE"⟩, List.mem_cons_self .., rfl⟩⟩

/-- C4: a deprecate call whose metadata passes validation and whose
`until` range is satisfied by the package version is removed immediately
— no pending expansion and no guard or logical expression is constructed
or registered for it. -/
theorem deprecate_expired_removed :
    ∀ (cfg : HelpersConfig) (sat : String → Bool) (message : String)
      (predicate : JSExpr) (props : List ObjectProperty),
      strTruthy (readMeta props).id = true →
      strTruthy (readMeta props).until_ = true →
      sat (jsStr (readMeta props).until_) = true →
      _deprecate cfg sat message predicate props = BuildResult.removed := by
  intro cfg sat message predicate props hid huntil hsat
  simp [_deprecate, hid, huntil, hsat]

/-- C4 (witness). -/
theorem deprecate_expired_removed_witness :
    strTruthy (readMeta [⟨"id", "foo-dep"⟩, ⟨"until", ">=2.0.0"⟩]).id = true ∧
    strTruthy (readMeta [⟨"id", "foo-dep"⟩, ⟨"until", ">=2.0.0"⟩]).until_ = true ∧
    (fun _ => true) (jsStr (readMeta [⟨"id", "foo-dep"⟩, ⟨"until", ">=2.0.0"⟩]).until_) = true ∧
    _deprecate ⟨false, none⟩ (fun _ => true) "Foo is bad" (JSExpr.identifier "p")
      [⟨"id", "foo-dep"⟩, ⟨"until", ">=2.0.0"⟩] = BuildResult.removed :=
  ⟨rfl, rfl, rfl,
   deprecate_expired_removed ⟨false, none⟩ (fun _ => true) "Foo is bad"
     (JSExpr.identifier "p") [⟨"id", "foo-dep"⟩, ⟨"until", ">=2.0.0"⟩] rfl rfl rfl⟩

/-- C5: the generated deprecation-message literal is exactly
`DEPRECATED [<id>]: <message>. Will be removed in <until>.` followed,
when a url is given, by exactly ` See <url> for more information.`, and
with the trailing sentence omitted entirely when url is absent; in
particular `message="Foo is bad"`,
`meta={id:"foo-dep", until:">=2.0.0", url:"http://x"}` yields
`DEPRECATED [foo-dep]: Foo is bad. Will be removed in >=2.0.0. See http://x for more information.`
in the registered terminal call. (Per JS truthiness an empty-string url
also counts as absent.) -/
theorem deprecate_message_format :
    (∀ (message i u url : String), url ≠ "" →
      _generateDeprecationMessage message ⟨some url, some i, some u⟩ =
        JSExpr.stringLiteral ("DEPRECATED [" ++ i ++ "]: " ++ message ++
          ". Will be removed in " ++ u ++ "." ++
          (" See " ++ url ++ " for more information."))) ∧
    (∀ (message i u : String),
      _generateDeprecationMessage message ⟨none, some i, some u⟩ =
        JSExpr.stringLiteral ("DEPRECATED [" ++ i ++ "]: " ++ message ++
          ". Will be removed in " ++ u ++ "." ++ "")) ∧
    (∀ (cfg : HelpersConfig) (sat : String → Bool) (predicate : JSExpr),
      sat ">=2.0.0" = false →
      _deprecate cfg sat "Foo is bad" predicate
          [⟨"id", "foo-dep"⟩, ⟨"until", ">=2.0.0"⟩, ⟨"url", "http://x"⟩] =
        BuildResult.registered [predicate]
          (selectHelper cfg "deprecate" "warn"
            [JSExpr.stringLiteral "DEPRECATED [foo-dep]: Foo is bad. Will be removed in >=2.0.0. See http://x for more information."])) := by
  refine ⟨?_, ?_, ?_⟩
  · intro message i u url hurl
    simp [_generateDeprecationMessage, strTruthy, jsStr, hurl]
  · intro message i u
    simp [_generateDeprecationMessage, strTruthy, jsStr]
  · intro cfg sat predicate hsat
    simp [_deprecate, readMeta, strTruthy, jsStr, hsat, _generateDeprecationMessage]

/-- C5 (witness). -/
theorem deprecate_message_format_witness :
    (("http://x" : String) ≠ "" ∧
      _generateDeprecationMessage "Foo is bad" ⟨some "http://x", some "foo-dep", some ">=2.0.0"⟩ =
        JSExpr.stringLiteral ("DEPRECATED [" ++ "foo-dep" ++ "]: " ++ "Foo is bad" ++
          ". Will be removed in " ++ ">=2.0.0" ++ "." ++
          (" See " ++ "http://x" ++ " for more information."))) ∧
    _generateDeprecationMessage "Foo is bad" ⟨none, some "foo-dep", some ">=2.0.0"⟩ =
      JSExpr.stringLiteral ("DEPRECATED [" ++ "foo-dep" ++ "]: " ++ "Foo is bad" ++
        ". Will be removed in " ++ ">=2.0.0" ++ "." ++ "") ∧
    ((fun _ => false) ">=2.0.0" = false ∧
      _deprecate ⟨false, none⟩ (fun _ => false) "Foo is bad" (JSExpr.identifier "p")
          [⟨"id", "foo-dep"⟩, ⟨"until", ">=2.0.0"⟩, ⟨"url", "http://x"⟩] =
        BuildResult.registered [JSExpr.identifier "p"]
          (selectHelper ⟨false, none⟩ "deprecate" "warn"
            [JSExpr.stringLiteral "DEPRECATED [foo-dep]: Foo is bad. Will be removed in >=2.0.0. See http://x for more information."])) :=
  ⟨⟨by decide,
    deprecate_message_format.1 "Foo is bad" "foo-dep" ">=2.0.0" "http://x" (by decide)⟩,
   deprecate_message_format.2.1 "Foo is bad" "foo-dep" ">=2.0.0",
   rfl,
   deprecate_message_format.2.2 ⟨false, none⟩ (fun _ => false) (JSExpr.identifier "p") rfl⟩

/-- C6: a deprecate call whose metadata lacks a truthy `id` raises the
reference error naming `id`, and one with a truthy `id` but no truthy
`until` raises the reference error naming `until`; in both cases the
builder returns the error outcome — neither a removal nor a registered
expansion — so no tree mutation has occurred for that call site. -/
theorem deprecate_missing_meta_error :
    ∀ (cfg : HelpersConfig) (sat : String → Bool) (message : String)
      (predicate : JSExpr) (props : List ObjectProperty),
      (strTruthy (readMeta props).id = false →
        _deprecate cfg sat message predicate props =
          BuildResult.error "deprecate's meta information requires an \"id\" field.") ∧
      (strTruthy (readMeta props).id = true →
        strTruthy (readMeta props).until_ = false →
        _deprecate cfg sat message predicate props =
          BuildResult.error "deprecate's meta information requires an \"until\" field.") := by
  intro cfg sat message predicate props
  constructor
  · intro hid
    simp [_deprecate, hid]
  · intro hid huntil
    simp [_deprecate, hid, huntil]

/-- C6 (witness). -/
theorem deprecate_missing_meta_error_witness :
    (strTruthy (readMeta [⟨"until", ">=2.0.0"⟩]).id = false ∧
      _deprecate ⟨false, none⟩ (fun _ => false) "m" (JSExpr.identifier "p")
          [⟨"until", ">=2.0.0"⟩] =
        BuildResult.error "deprecate's meta information requires an \"id\" field.") ∧
    (strTruthy (readMeta [⟨"id", "foo-dep"⟩]).id = true ∧
      strTruthy (readMeta [⟨"id", "foo-dep"⟩]).until_ = false ∧
      _deprecate ⟨false, none⟩ (fun _ => false) "m" (JSExpr.identifier "p")
          [⟨"id", "foo-dep"⟩] =
        BuildResult.error "deprecate's meta information requires an \"until\" field.") :=
  ⟨⟨rfl, (deprecate_missing_meta_error ⟨false, none⟩ (fun _ => false) "m"
      (JSExpr.identifier "p") [⟨"until", ">=2.0.0"⟩]).1 rfl⟩,
   ⟨rfl, rfl, (deprecate_missing_meta_error ⟨false, none⟩ (fun _ => false) "m"
      (JSExpr.identifier "p") [⟨"id", "foo-dep"⟩]).2 rfl rfl⟩⟩

/-- C10: the guard-binding injector takes the reuse path exactly when the
scope's DEBUG binding exists with kind `module` and import source
`@ember/env-flags`; otherwise it synthesizes, using the framework-supplied
collision-free identifier as the guard name, and it inserts the constant
declaration initialized to the environment table's DEBUG value exactly
when at least one pending expansion was registered. -/
theorem injectFlags_paths :
    ∀ (b : Option BindingInfo) (uid : String) (exprs : List PendingExpansion)
      (v : Int) (env : FlagTable) (specs : List ImportSpecifier),
      ((injectFlags b uid exprs v env specs).reusePath = true ↔
        ∃ bi, b = some bi ∧ bi.kind = "module" ∧ bi.parentSource = "@ember/env-flags") ∧
      (injectFlags b uid exprs v env specs).guardName =
        (if _hasDebugModule b then "DEBUG" else uid) ∧
      (injectFlags b uid exprs v env specs).injectedDecl =
        (if _hasDebugModule b = false ∧ exprs.length > 0 then
          some (JSStmt.variableDeclaration "const"
            [(JSExpr.identifier uid, JSExpr.numericLiteral v)])
        else none) := by
  intro b uid exprs v env specs
  have hiff : _hasDebugModule b = true ↔
      ∃ bi, b = some bi ∧ bi.kind = "module" ∧ bi.parentSource = "@ember/env-flags" := by
    cases b with
    | none => simp [_hasDebugModule]
    | some bi => simp [_hasDebugModule]
  refine ⟨?_, ?_, ?_⟩
  · rw [← hiff]
    cases hdm : _hasDebugModule b <;> simp [injectFlags, hdm]
  · cases hdm : _hasDebugModule b <;> simp [injectFlags, hdm]
  · cases hdm : _hasDebugModule b <;>
      cases hlen : exprs.length <;> simp [injectFlags, hdm, hlen]
